import Mathlib

/-!
Shallow embedding of the interactive vault browser of obsidian-cli
(src/tui/mod.rs), together with theorems about its folder tree builder,
visibility model, selection movement, note loader/cache, tag extraction
and refresh-after-edit logic.

Modelling conventions:
* Filesystem paths are lists of components (`List String`); an absolute
  path `/a/b` is `["a", "b"]` and `Path::parent` is `dropLast` (with `none`
  for the empty path), matching Rust's behaviour on absolute paths.
* The filesystem, and the external editor-command resolver, are modelled by
  an `Env` structure of functions; `Except String` models `anyhow::Result`.
* `HashSet<PathBuf>` is modelled as a `List` of paths used as a set
  (membership is what all the code observes); `HashMap<PathBuf, Vec<NoteEntry>>`
  is an association list with insert-replaces-key semantics.
* The directory tree walked by `build_folder_entries` is a first-child /
  next-sibling encoded tree (`DirT`), walked in preorder exactly as
  `walkdir` does, with `filter_entry(should_visit_dir)` pruning.
* String helpers (`lines`, `trim`, `split`, lowercase) are re-implemented
  structurally over `String.data` so that every definition reduces in the
  kernel; they implement the ASCII behaviour of the Rust originals.
-/

abbrev VPath := List String

/-- Split a character list at every occurrence of `sep` (like Rust's
`split`, keeping empty segments, with a trailing empty segment when the
input ends with `sep`). -/
def splitOnChar (sep : Char) : List Char → List (List Char)
  | [] => [[]]
  | c :: cs =>
    let r := splitOnChar sep cs
    if c = sep then [] :: r
    else
      match r with
      | [] => [[c]]
      | l :: ls => (c :: l) :: ls

/-- Join character lists with a separator character (inverse of `splitOnChar`). -/
def joinChar (sep : Char) : List (List Char) → List Char
  | [] => []
  | [x] => x
  | x :: xs => x ++ sep :: joinChar sep xs

/-- ASCII whitespace test, modelling the whitespace accepted by Rust's
`str::trim` on the ASCII range. -/
def isWS (c : Char) : Bool := c = ' ' ∨ c = '\t' ∨ c = '\r' ∨ c = '\n'

/-- Drop leading whitespace characters. -/
def trimL : List Char → List Char
  | [] => []
  | c :: cs => if isWS c then trimL cs else c :: cs

/-- Model of Rust `str::trim` (ASCII whitespace). -/
def trimStr (s : String) : String :=
  String.mk (trimL ((trimL s.data.reverse).reverse))

/-- Drop a single trailing carriage return, as Rust's `str::lines` does. -/
def stripCR (l : List Char) : List Char :=
  if l.getLast? = some '\r' then l.dropLast else l

/-- Model of Rust `str::lines`: split on newline, drop a final empty
segment produced by a trailing newline, strip one trailing `\r` per line. -/
def rustLines (s : String) : List String :=
  let parts := splitOnChar '\n' s.data
  let parts := if parts.getLast? = some [] then parts.dropLast else parts
  parts.map (fun l => String.mk (stripCR l))

/-- ASCII lowercase of one character (`char::to_ascii_lowercase`). -/
def charLower (c : Char) : Char :=
  if 'A' ≤ c ∧ c ≤ 'Z' then Char.ofNat (c.toNat + 32) else c

/-- ASCII lowercase of a string (models `str::to_lowercase` /
`eq_ignore_ascii_case` on the ASCII range). -/
def lowerStr (s : String) : String := String.mk (s.data.map charLower)

/-- Boolean lexicographic comparison of character lists, modelling Rust's
`Ord` on strings restricted to ASCII. -/
def charListLe : List Char → List Char → Bool
  | [], _ => true
  | _ :: _, [] => false
  | a :: as, b :: bs => if a = b then charListLe as bs else decide (a < b)

/-- Does `s` start with the pattern `pat`? (model of `str::starts_with`). -/
def startsWithL : List Char → List Char → Bool
  | [], _ => true
  | _ :: _, [] => false
  | p :: ps, c :: cs => p = c && startsWithL ps cs

/-- String version of `startsWithL`. -/
def strStarts (s pat : String) : Bool := startsWithL pat.data s.data

/-- Render a component path the way `Path::display` renders an absolute
path. -/
def joinPath : List String → String
  | [] => ""
  | [x] => x
  | x :: xs => x ++ "/" ++ joinPath xs

/-- `path.display()` for our component-list paths. -/
def pathToString (p : VPath) : String := "/" ++ joinPath p

/-!  ## YAML front matter (model of the serde_yaml collaborator)

`extract_tags` hands the front-matter text to `serde_yaml::from_str::<Value>`
and then reads the `tags` field.  serde_yaml is an external library; the
model below implements the fragment of YAML that note front matter uses:
a top-level mapping of `key: value` lines, where a value is a plain
scalar, a double-quoted scalar, a flow sequence `[a, b]`, or a block
sequence of `- item` lines under a key with an empty value.  Anything the
model cannot read is a parse failure (`none`), as in serde_yaml; scalars
that YAML does not treat as strings (numbers, booleans, null) are kept as
non-string values so that `Value::as_str` rejects them. -/

inductive Yaml where
  | str (s : String)
  | seq (xs : List Yaml)
  | mapv (kvs : List (String × Yaml))
  | numv
  | boolv
  | nullv
  | otherv

/-- `Value::as_str`: only string scalars answer. -/
def yamlAsStr : Yaml → Option String
  | Yaml.str s => some s
  | _ => none

/-- Is the scalar wrapped in double quotes? -/
def isQuoted (t : String) : Bool :=
  t.data.head? = some '"' && t.data.getLast? = some '"' && decide (2 ≤ t.data.length)

/-- Parse one YAML scalar. -/
def parseScalar (s : String) : Yaml :=
  let t := trimStr s
  if t = "" then Yaml.nullv
  else if t = "null" ∨ t = "~" then Yaml.nullv
  else if t = "true" ∨ t = "false" then Yaml.boolv
  else if t.data.all Char.isDigit then Yaml.numv
  else if isQuoted t then Yaml.str (String.mk (t.data.drop 1).dropLast)
  else if t.data.head? = some '[' then Yaml.otherv
  else Yaml.str t

/-- Parse an inline value: a flow sequence `[x, y]` (which must be closed,
else the document is malformed) or a scalar. -/
def parseValue (s : String) : Option Yaml :=
  let t := trimStr s
  match t.data with
  | '[' :: rest =>
    if rest.getLast? = some ']' then
      let inner := rest.dropLast
      if trimStr (String.mk inner) = "" then some (Yaml.seq [])
      else some (Yaml.seq ((splitOnChar ',' inner).map (fun e => parseScalar (String.mk e))))
    else none
  | _ => some (parseScalar t)

/-- Split a `key: value` line at the first colon; YAML requires the value
to be empty or to start with whitespace. -/
def splitKV (l : String) : Option (String × String) :=
  match splitOnChar ':' l.data with
  | [] => none
  | [_] => none
  | k :: rest =>
    let v := joinChar ':' rest
    if v = [] ∨ v.head? = some ' ' ∨ v.head? = some '\t' then
      some (trimStr (String.mk k), String.mk v)
    else none

/-- Consume the leading `- item` lines of a block sequence, returning the
items and the remaining lines. -/
def parseItems : List String → List Yaml × List String
  | [] => ([], [])
  | l :: ls =>
    let t := trimStr l
    if strStarts t "- " then
      let r := parseItems ls
      (parseScalar (String.mk (t.data.drop 2)) :: r.1, r.2)
    else if t = "-" then
      let r := parseItems ls
      (Yaml.nullv :: r.1, r.2)
    else ([], l :: ls)

/-- Fuelled top-level mapping parser (the fuel only bounds the recursion;
`parseMapLines` supplies one unit per input line, which is always enough
because every step consumes at least one line). -/
def parseMapLinesF : Nat → List String → Option (List (String × Yaml))
  | _, [] => some []
  | 0, _ :: _ => none
  | fuel + 1, l :: ls =>
    if trimStr l = "" then parseMapLinesF fuel ls
    else
      match splitKV l with
      | none => none
      | some kv =>
        if trimStr kv.2 = "" then
          let r := parseItems ls
          match parseMapLinesF fuel r.2 with
          | none => none
          | some m =>
            some ((kv.1, if r.1.isEmpty then Yaml.nullv else Yaml.seq r.1) :: m)
        else
          match parseValue kv.2 with
          | none => none
          | some v =>
            match parseMapLinesF fuel ls with
            | none => none
            | some m => some ((kv.1, v) :: m)

/-- Parse front-matter lines as a top-level YAML mapping. -/
def parseMapLines (ls : List String) : Option (List (String × Yaml)) :=
  parseMapLinesF ls.length ls

/-- Model of `extract_tags` (src/tui/mod.rs lines 510-542): the content
must start with a `---` line; all following lines up to a closing `---`
(or end of file) form the front matter; an empty front matter, a parse
failure, or a missing / non-string-shaped `tags` field all yield `[]`.
A `tags` sequence keeps exactly its string elements; a `tags` string
yields a singleton. -/
def extract_tags (content : String) : List String :=
  match rustLines content with
  | [] => []
  | first :: rest =>
    if trimStr first = "---" then
      let fm := rest.takeWhile (fun l => trimStr l != "---")
      if fm.isEmpty then []
      else
        match parseMapLines fm with
        | none => []
        | some kvs =>
          match (kvs.find? (fun kv => kv.1 == "tags")).map (fun kv => kv.2) with
          | some (Yaml.seq xs) => xs.filterMap yamlAsStr
          | some (Yaml.str t) => [t]
          | _ => []
    else []

/-!  ## Folder tree builder -/

/-- One record of the flat folder arena (struct `FolderEntry`). -/
structure FolderEntry where
  path : VPath
  name : String
  depth : Nat
  parent : Option VPath
deriving DecidableEq, Inhabited, Repr

/-- A directory forest in first-child / next-sibling encoding: `dir name
child sib` is a directory whose subdirectory forest is `child` and whose
right siblings are `sib`.  This is the shape `walkdir` traverses. -/
inductive DirT where
  | leaf
  | dir (name : String) (child : DirT) (sib : DirT)
deriving DecidableEq, Inhabited, Repr

/-- Model of `should_visit_dir` (src/tui/mod.rs lines 452-461): depth 0 is
always visited; deeper directories are skipped when hidden (leading dot)
or named `node_modules`. -/
def should_visit_dir (depth : Nat) (name : String) : Bool :=
  if depth = 0 then true
  else !(strStarts name "." || name == "node_modules")

/-- Display name of the root entry: the vault path's file name, or its
display form when it has none (`build_folder_entries`, depth-0 case). -/
def rootName (vp : VPath) : String :=
  match vp.getLast? with
  | some n => n
  | none => pathToString vp

/-- One folder entry as `build_folder_entries` constructs it: note that the
parent is `path.parent()` for every entry, the root included. -/
def mkFolderEntry (vp : VPath) (path : VPath) (depth : Nat) : FolderEntry :=
  { path := path
    name := if depth = 0 then rootName vp else (path.getLast?).getD ""
    depth := depth
    parent := if path.isEmpty then none else some path.dropLast }

/-- Preorder walk of a directory forest below `path` at `depth`, pruning
subtrees rejected by `should_visit_dir` exactly as
`WalkDir::filter_entry` does. -/
def build_walk (vp : VPath) : VPath → Nat → DirT → List FolderEntry
  | _, _, DirT.leaf => []
  | path, depth, DirT.dir name child sib =>
    (if should_visit_dir depth name then
      mkFolderEntry vp (path ++ [name]) depth :: build_walk vp (path ++ [name]) (depth + 1) child
    else []) ++ build_walk vp path depth sib

/-- Model of `build_folder_entries` (src/tui/mod.rs lines 424-450): the
root directory itself (depth 0) followed by the preorder walk of its
subdirectory forest. -/
def build_folder_entries (vp : VPath) (rootChildren : DirT) : List FolderEntry :=
  mkFolderEntry vp vp 0 :: build_walk vp vp 1 rootChildren

/-- Model of `initialize_expanded_folders` (src/tui/mod.rs lines 415-422):
the vault path plus the path of every entry of depth at most 1.  The
`HashSet` is modelled by this list's members. -/
def initialize_expanded_folders (folders : List FolderEntry) (vp : VPath) : List VPath :=
  vp :: (folders.filter (fun f => f.depth ≤ 1)).map (fun f => f.path)

/-!  ## Note loader and cache -/

/-- One record of the per-folder note list (struct `NoteEntry`); the
modification time is an abstract timestamp. -/
structure NoteEntry where
  path : VPath
  name : String
  modified : Option Nat
  tags : List String
deriving DecidableEq, Inhabited, Repr

/-- The external collaborators of the browser: the filesystem (directory
test, directory listing, file metadata + modification time, file read)
and the configuration's editor resolution.  `metaRes` returns `.error`
when `fs::metadata` itself fails and `.ok none` when only
`metadata.modified()` fails. -/
structure Env where
  isDir : VPath → Bool
  readDir : VPath → Except String (List String)
  metaRes : VPath → Except String (Option Nat)
  readFile : VPath → Except String String
  resolveEditor : Except String String

/-- Model of Rust `Path::extension`: the part of the file name after the
last dot, none when there is no dot or when the only dot is leading. -/
def fileExt (name : String) : Option String :=
  match splitOnChar '.' name.data with
  | [] => none
  | [_] => none
  | p :: ps =>
    if p = [] ∧ ps.length = 1 then none
    else ((p :: ps).getLast?).map String.mk

/-- Model of `is_markdown` (src/tui/mod.rs lines 544-549). -/
def is_markdown (path : VPath) : Bool :=
  match path.getLast? with
  | none => false
  | some name =>
    match fileExt name with
    | some ext => lowerStr ext == "md"
    | none => false

/-- Model of `build_note_entry` (src/tui/mod.rs lines 489-508): a
`fs::metadata` failure is fatal; a `modified()` failure only leaves the
timestamp absent; an unreadable file contributes empty content
(`unwrap_or_default`), hence no tags. -/
def build_note_entry (env : Env) (path : VPath) : Except String NoteEntry :=
  match env.metaRes path with
  | Except.error _ => Except.error ("failed to read metadata for " ++ pathToString path)
  | Except.ok modified =>
    let name := (path.getLast?).getD ""
    let content :=
      match env.readFile path with
      | Except.ok c => c
      | Except.error _ => ""
    Except.ok { path := path, name := name, modified := modified, tags := extract_tags content }

/-- Case-insensitive name order used by `read_notes`' sort. -/
def noteLe (a b : NoteEntry) : Bool :=
  charListLe (lowerStr a.name).data (lowerStr b.name).data

/-- Stable insertion into a sorted note list. -/
def insertNote (x : NoteEntry) : List NoteEntry → List NoteEntry
  | [] => [x]
  | y :: ys => if noteLe x y then x :: y :: ys else y :: insertNote x ys

/-- Stable sort by case-insensitive name (model of `sort_by` in
`read_notes`). -/
def sortNotes : List NoteEntry → List NoteEntry
  | [] => []
  | x :: xs => insertNote x (sortNotes xs)

/-- Build the entries for the markdown files of a directory listing,
propagating the first `build_note_entry` error. -/
def read_notes_go (env : Env) (folder : VPath) : List String → Except String (List NoteEntry)
  | [] => Except.ok []
  | n :: ns =>
    let path := folder ++ [n]
    if is_markdown path then
      match build_note_entry env path with
      | Except.error e => Except.error e
      | Except.ok entry =>
        match read_notes_go env folder ns with
        | Except.error e => Except.error e
        | Except.ok rest => Except.ok (entry :: rest)
    else read_notes_go env folder ns

/-- Model of `read_notes` (src/tui/mod.rs lines 472-487): a non-directory
yields the empty list; a `read_dir` failure is reported with context; the
collected entries are sorted case-insensitively by name. -/
def read_notes (env : Env) (folder : VPath) : Except String (List NoteEntry) :=
  match
    (if env.isDir folder then
      match env.readDir folder with
      | Except.error _ => Except.error ("failed to read " ++ pathToString folder)
      | Except.ok names => read_notes_go env folder names
    else Except.ok []) with
  | Except.error e => Except.error e
  | Except.ok entries => Except.ok (sortNotes entries)

/-- The notes cache: association list from folder path to note list. -/
abbrev Cache := List (VPath × List NoteEntry)

/-- `HashMap::get` on the cache. -/
def cacheGet (cache : Cache) (p : VPath) : Option (List NoteEntry) :=
  (cache.find? (fun kv => kv.1 = p)).map (fun kv => kv.2)

/-- `HashMap::insert` on the cache (replaces any previous binding). -/
def cacheInsert (cache : Cache) (p : VPath) (v : List NoteEntry) : Cache :=
  (p, v) :: cache.filter (fun kv => kv.1 ≠ p)

/-- `HashMap::remove` on the cache. -/
def cacheRemove (cache : Cache) (p : VPath) : Cache :=
  cache.filter (fun kv => kv.1 ≠ p)

/-- Model of `ensure_notes_loaded` (src/tui/mod.rs lines 463-470): a cached
folder is returned untouched; otherwise the folder is read once and
inserted. -/
def ensure_notes_loaded (env : Env) (cache : Cache) (folder : VPath) : Except String Cache :=
  if (cacheGet cache folder).isSome then Except.ok cache
  else
    match read_notes env folder with
    | Except.error e => Except.error e
    | Except.ok notes => Except.ok (cacheInsert cache folder notes)

/-!  ## App state and the visibility/selection model -/

/-- The three focusable panes. -/
inductive Focus where
  | folders
  | notes
  | viewer
deriving DecidableEq, Inhabited, Repr

/-- `Focus::next` (Tab cycle). -/
def Focus.next : Focus → Focus
  | Focus.folders => Focus.notes
  | Focus.notes => Focus.viewer
  | Focus.viewer => Focus.folders

/-- `Focus::prev` (Shift-Tab cycle). -/
def Focus.prev : Focus → Focus
  | Focus.folders => Focus.viewer
  | Focus.notes => Focus.folders
  | Focus.viewer => Focus.notes

/-- The session state (struct `AppState`); the `folder_index` map is
recomputed from `folders` on demand (the list is immutable after
construction, so this is observationally the precomputed `HashMap`). -/
structure AppState where
  vault_path : VPath
  editor_command : Option String
  folders : List FolderEntry
  expanded : List VPath
  selected_folder : VPath
  notes_cache : Cache
  selected_note : Option Nat
  focus : Focus
  note_preview : String
  base_status : String
  status : String
deriving DecidableEq, Inhabited, Repr

/-- The `folder_index` lookup: `HashMap` insertion in index order keeps the
last binding of a duplicated path, hence the last matching index. -/
def folderIndex (folders : List FolderEntry) (p : VPath) : Option Nat :=
  ((folders.enum.filter (fun x => x.2.path = p)).getLast?).map (fun x => x.1)

/-- `current_folder_entry` (src/tui/mod.rs lines 145-149). -/
def current_folder_entry (s : AppState) : Option FolderEntry :=
  (folderIndex s.folders s.selected_folder).bind (fun i => s.folders.get? i)

/-- Model of `is_folder_visible` (src/tui/mod.rs lines 168-183).  The Rust
function recurses through parent entries; the fuel bounds that recursion
(any fuel above the longest parent chain, e.g. `folders.length + 1`,
computes the same answer for the lists `build_folder_entries` produces). -/
def is_folder_visible (s : AppState) : Nat → FolderEntry → Bool
  | 0, _ => false
  | fuel + 1, f =>
    match f.parent with
    | none => true
    | some parent =>
      if parent ∈ s.expanded then
        match folderIndex s.folders parent with
        | some idx =>
          match s.folders.get? idx with
          | some parent_entry => is_folder_visible s fuel parent_entry
          | none => true
        | none => true
      else false

/-- Model of `visible_folders` (src/tui/mod.rs lines 161-166): the folder
list filtered by visibility, in construction order. -/
def visible_folders (s : AppState) : List FolderEntry :=
  s.folders.filter (fun f => is_folder_visible s (s.folders.length + 1) f)

/-- `visible_folder_index` (src/tui/mod.rs lines 185-190). -/
def visible_folder_index (s : AppState) : Option Nat :=
  (visible_folders s).findIdx? (fun f => f.path = s.selected_folder)

/-- `notes_for_selected_folder` (src/tui/mod.rs lines 232-237). -/
def notes_for_selected_folder (s : AppState) : List NoteEntry :=
  (cacheGet s.notes_cache s.selected_folder).getD []

/-- `selected_note_entry` (src/tui/mod.rs lines 253-256). -/
def selected_note_entry (s : AppState) : Option NoteEntry :=
  s.selected_note.bind (fun i => (notes_for_selected_folder s).get? i)

/-- `selected_note_path` (src/tui/mod.rs lines 258-260). -/
def selected_note_path (s : AppState) : Option VPath :=
  (selected_note_entry s).map (fun n => n.path)

/-- The text `refresh_note_preview` derives from the current selection:
note content, an inline read-error message, or the placeholder. -/
def previewFor (env : Env) (s : AppState) : String :=
  match selected_note_path s with
  | some p =>
    match env.readFile p with
    | Except.ok content => content
    | Except.error err => "Failed to read note " ++ pathToString p ++ ": " ++ err
  | none => "Select a note to preview"

/-- Model of `refresh_note_preview` (src/tui/mod.rs lines 305-318). -/
def refresh_note_preview (env : Env) (s : AppState) : AppState :=
  { s with note_preview := previewFor env s }

/-- Model of `select_folder` (src/tui/mod.rs lines 207-214): load the
folder's notes, select it, select its first note when it has any, refresh
the preview.  On a load error the state is unchanged (the Rust code
mutates nothing before `ensure_notes_loaded` succeeds). -/
def select_folder (env : Env) (s : AppState) (path : VPath) : Except String AppState :=
  match ensure_notes_loaded env s.notes_cache path with
  | Except.error e => Except.error e
  | Except.ok cache =>
    Except.ok (refresh_note_preview env
      { s with notes_cache := cache
               selected_folder := path
               selected_note :=
                 (cacheGet cache path).bind (fun es => if es.isEmpty then none else some 0) })

/-- Model of `move_folder_selection` (src/tui/mod.rs lines 192-205):
re-rank the visible list, clamp the target index (Rust's
`clamp(0, len-1)` is `min (max _ 0) (len-1)`), and only re-select when the
target differs. -/
def move_folder_selection (env : Env) (s : AppState) (delta : Int) : Except String AppState :=
  let visible := visible_folders s
  if visible.isEmpty then Except.ok s
  else
    let current : Nat := (visible_folder_index s).getD 0
    let len : Int := visible.length
    let next : Nat := (min (max ((current : Int) + delta) 0) (len - 1)).toNat
    let next_path := (visible.getD next default).path
    if next_path = s.selected_folder then Except.ok s
    else select_folder env s next_path

/-- Model of `expand_selected_folder` (src/tui/mod.rs lines 216-218). -/
def expand_selected_folder (s : AppState) : AppState :=
  { s with expanded := s.selected_folder :: s.expanded }

/-- Model of `collapse_selected_folder` (src/tui/mod.rs lines 220-230):
remove the selected folder from the expansion set if present; otherwise
select its recorded parent when it has one. -/
def collapse_selected_folder (env : Env) (s : AppState) : Except String AppState :=
  if s.selected_folder ∈ s.expanded then
    Except.ok { s with expanded := s.expanded.filter (fun p => p ≠ s.selected_folder) }
  else
    match current_folder_entry s with
    | some entry =>
      match entry.parent with
      | some parent => select_folder env s parent
      | none => Except.ok s
    | none => Except.ok s

/-- Model of `move_note_selection` (src/tui/mod.rs lines 239-251): an empty
note list clears selection and preview; otherwise the clamped target is
selected and the preview refreshed. -/
def move_note_selection (env : Env) (s : AppState) (delta : Int) : AppState :=
  let notes := notes_for_selected_folder s
  if notes.isEmpty then
    { s with selected_note := none, note_preview := "" }
  else
    let current : Int := (s.selected_note.getD 0 : Nat)
    let mx : Int := (notes.length : Int) - 1
    let next : Nat := (min (max (current + delta) 0) mx).toNat
    refresh_note_preview env { s with selected_note := some next }

/-- Model of `refresh_after_external_edit` (src/tui/mod.rs lines 285-303):
drop the selected folder's cache entry, reload it, re-resolve the
selection by the edited note's path (else first note, else none) and
refresh the preview.  The pair's second component is the error of a
failed reload (in which case the cache entry stays removed, as in Rust). -/
def refresh_after_external_edit (env : Env) (s : AppState) (note_path : VPath) :
    AppState × Option String :=
  let s1 := { s with notes_cache := cacheRemove s.notes_cache s.selected_folder }
  match ensure_notes_loaded env s1.notes_cache s1.selected_folder with
  | Except.error e => (s1, some e)
  | Except.ok cache2 =>
    let s2 := { s1 with notes_cache := cache2 }
    let s3 :=
      match cacheGet cache2 s2.selected_folder with
      | some entries =>
        match entries.findIdx? (fun n => n.path = note_path) with
        | some idx => { s2 with selected_note := some idx }
        | none =>
          if entries.isEmpty then { s2 with selected_note := none }
          else { s2 with selected_note := some 0 }
      | none => { s2 with selected_note := none }
    (refresh_note_preview env s3, none)

/-!  ## Input state machine -/

/-- The key codes the handler distinguishes. -/
inductive KeyCode where
  | char (c : Char)
  | tab
  | backTab
  | up
  | down
  | left
  | right
  | enter
  | esc
  | other
deriving DecidableEq, Inhabited, Repr

/-- A key event: code plus whether it is a press (non-press events are
ignored). -/
structure KeyEvent where
  code : KeyCode
  press : Bool
deriving DecidableEq, Inhabited, Repr

/-- The session-loop actions `handle_key` can request. -/
inductive AppAction where
  | cont
  | quit
  | open (editor : String) (note : VPath)
deriving DecidableEq, Inhabited, Repr

/-- Model of `prepare_open_action` (src/tui/mod.rs lines 262-283): with no
selected note, or on an editor-resolution failure, only the status line
changes; otherwise an `open` action is produced (caching a freshly
resolved editor command). -/
def prepare_open_action (env : Env) (s : AppState) : AppState × Option AppAction :=
  match selected_note_path s with
  | none => ({ s with status := "Select a note to open" }, none)
  | some path =>
    match s.editor_command with
    | some cmd => (s, some (AppAction.open cmd path))
    | none =>
      match env.resolveEditor with
      | Except.ok cmd => ({ s with editor_command := some cmd }, some (AppAction.open cmd path))
      | Except.error e => ({ s with status := e }, none)

/-- The `if let Some(action) = self.prepare_open_action()? { return Ok(action) }`
pattern of `handle_key`: run `prepare_open_action` and return its action
when there is one, else continue. -/
def open_or_continue (env : Env) (s : AppState) : AppState × AppAction :=
  match prepare_open_action env s with
  | (s2, some a) => (s2, a)
  | (s2, none) => (s2, AppAction.cont)

/-- Fold a fallible state update back into the state, reporting an error on
the status line, as `handle_key` does for the move/collapse calls. -/
def runOrStatus (s : AppState) : Except String AppState → AppState
  | Except.ok s2 => s2
  | Except.error e => { s with status := e }

/-- Model of `handle_key` (src/tui/mod.rs lines 341-412). -/
def handle_key (env : Env) (s : AppState) (k : KeyEvent) : AppState × AppAction :=
  if !k.press then (s, AppAction.cont)
  else
    match k.code with
    | KeyCode.char c =>
      if c = 'q' then (s, AppAction.quit)
      else if c = 'e' ∨ c = 'o' then open_or_continue env s
      else if c = 'n' ∨ c = 'd' then
        ({ s with status := "Action not implemented yet" }, AppAction.cont)
      else if c = '/' then
        ({ s with status := "Search is not implemented yet" }, AppAction.cont)
      else (s, AppAction.cont)
    | KeyCode.tab => ({ s with focus := s.focus.next }, AppAction.cont)
    | KeyCode.backTab => ({ s with focus := s.focus.prev }, AppAction.cont)
    | KeyCode.up =>
      match s.focus with
      | Focus.folders => (runOrStatus s (move_folder_selection env s (-1)), AppAction.cont)
      | Focus.notes => (move_note_selection env s (-1), AppAction.cont)
      | Focus.viewer => (s, AppAction.cont)
    | KeyCode.down =>
      match s.focus with
      | Focus.folders => (runOrStatus s (move_folder_selection env s 1), AppAction.cont)
      | Focus.notes => (move_note_selection env s 1, AppAction.cont)
      | Focus.viewer => (s, AppAction.cont)
    | KeyCode.left =>
      match s.focus with
      | Focus.folders => (runOrStatus s (collapse_selected_folder env s), AppAction.cont)
      | _ => (s, AppAction.cont)
    | KeyCode.right =>
      match s.focus with
      | Focus.folders => (expand_selected_folder s, AppAction.cont)
      | _ => (s, AppAction.cont)
    | KeyCode.enter =>
      match s.focus with
      | Focus.folders => ({ expand_selected_folder s with focus := Focus.notes }, AppAction.cont)
      | _ => open_or_continue env s
    | KeyCode.esc => ({ s with focus := Focus.folders, status := s.base_status }, AppAction.cont)
    | KeyCode.other => (s, AppAction.cont)

/-- Run a sequence of key events through `handle_key`, keeping the state. -/
def run_keys (env : Env) (s : AppState) (ks : List KeyEvent) : AppState :=
  ks.foldl (fun st k => (handle_key env st k).1) s

/-- The default status line (`default_status_message`). -/
def default_status_message (vp : VPath) : String :=
  "Vault: " ++ rootName vp ++ " • ↑/↓ navigate • ←/→ fold • Enter open • Tab switch panel • q quit"

/-- Model of `AppState::new` (src/tui/mod.rs lines 100-143): build the
folder arena, the initial expansion set, select the first folder (the
root), load and select its notes, set the status lines and refresh the
preview. -/
def AppState.new (env : Env) (vp : VPath) (rootChildren : DirT) (editor : Option String) :
    Except String AppState :=
  let folders := build_folder_entries vp rootChildren
  let expanded := initialize_expanded_folders folders vp
  let selected_folder := ((folders.head?).map (fun f => f.path)).getD vp
  match ensure_notes_loaded env [] selected_folder with
  | Except.error e => Except.error e
  | Except.ok cache =>
    let selected_note :=
      match cacheGet cache selected_folder with
      | some notes => if notes.isEmpty then none else some 0
      | none => none
    let base := default_status_message vp
    Except.ok (refresh_note_preview env
      { vault_path := vp
        editor_command := editor
        folders := folders
        expanded := expanded
        selected_folder := selected_folder
        notes_cache := cache
        selected_note := selected_note
        focus := Focus.folders
        note_preview := ""
        base_status := base
        status := base })

/-!  ## A concrete session: vault `/home/me/vault` with subfolder `A` and note `x.md` -/

/-- A concrete vault root path, `/home/me/vault`. -/
def exVault : VPath := ["home", "me", "vault"]

/-- The vault's subdirectory forest: a single subfolder `A`. -/
def exTree : DirT := DirT.dir "A" DirT.leaf DirT.leaf

/-- A concrete environment: the vault directory holds `x.md` (content
`hello`, modification time 5), the subfolder `A` is empty, everything
else is not a directory and not readable. -/
def exEnv : Env :=
  { isDir := fun p => decide (p = exVault) || decide (p = exVault ++ ["A"])
    readDir := fun p => if p = exVault then Except.ok ["x.md"] else Except.ok []
    metaRes := fun _ => Except.ok (some 5)
    readFile := fun p =>
      if p = exVault ++ ["x.md"] then Except.ok "hello" else Except.error "no such file"
    resolveEditor := Except.ok "vi" }

/-- The session state right after `AppState::new` on the concrete vault. -/
def exState0 : AppState :=
  match AppState.new exEnv exVault exTree (some "vi") with
  | Except.ok s => s
  | Except.error _ => default

/-- The state after one collapse at the root (removes the root from the
expansion set). -/
def exState1 : AppState :=
  match collapse_selected_folder exEnv exState0 with
  | Except.ok s => s
  | Except.error _ => default

/-- The state after a second collapse at the (now collapsed) root. -/
def exState2 : AppState :=
  match collapse_selected_folder exEnv exState1 with
  | Except.ok s => s
  | Except.error _ => default

/-- The state after selecting the empty subfolder `A`. -/
def exStateA : AppState :=
  match select_folder exEnv exState0 (exVault ++ ["A"]) with
  | Except.ok s => s
  | Except.error _ => default

/-- The note list `read_notes` produces for the concrete vault root. -/
def exNotes : List NoteEntry :=
  match read_notes exEnv exVault with
  | Except.ok ns => ns
  | Except.error _ => []

/-- A pressed down-arrow key event. -/
def kDown : KeyEvent := { code := KeyCode.down, press := true }

/-- C1: the claim says `visible_folders()` returns exactly the folders
whose ancestor chain is expanded and that the root entry is always a
member.  On the concrete vault `/home/me/vault` the constructed folder
list has the root at depth 0 and `A` at depth 1, the root path is in the
expansion set, yet `visible_folders` is empty — the root entry's recorded
parent is the vault's parent directory `/home/me`, which is never
expanded, so `is_folder_visible` rejects the root and, transitively,
every other folder. -/
theorem c1_root_never_visible :
    (exState0.folders.map (fun f => f.depth)) = [0, 1] ∧
    exVault ∈ exState0.expanded ∧
    visible_folders exState0 = [] := by decide

/-- C2: the claim says the single depth-0 entry of the constructed folder
list has no parent path.  On the concrete vault the builder produces
exactly one depth-0 entry, but its parent is `some /home/me` (the vault
path's parent directory), not `none`. -/
theorem c2_root_entry_has_parent :
    build_folder_entries exVault exTree =
      [{ path := exVault, name := "vault", depth := 0, parent := some ["home", "me"] },
       { path := exVault ++ ["A"], name := "A", depth := 1, parent := some exVault }] ∧
    ((build_folder_entries exVault exTree).getD 0 default).parent ≠ none := by decide

/-- C3: the claim says collapsing at the root while the root is already
collapsed is a no-op.  In the concrete session, after one collapse at the
root (`exState1`: root selected, root no longer expanded), a second
collapse is not a no-op: the root entry's recorded parent is `/home/me`,
so the code selects the vault's parent directory. -/
theorem c3_collapse_collapsed_root_not_noop :
    exState1.selected_folder = exVault ∧
    exVault ∉ exState1.expanded ∧
    collapse_selected_folder exEnv exState1 = Except.ok exState2 ∧
    exState2.selected_folder = ["home", "me"] ∧
    exState2 ≠ exState1 := by
  refine ⟨by decide, by decide, rfl, by decide, by decide⟩

/-- C5: tag extraction is total and never fails: a front-matter `tags`
flow sequence yields its elements, a scalar `tags` yields a singleton,
and content with no leading delimiter line, an empty document, a missing
`tags` field, or a malformed block all yield the empty list. -/
theorem c5_extract_tags_total :
    extract_tags "---\ntags: [a, b]\n---\nbody" = ["a", "b"] ∧
    extract_tags "---\ntags: a\n---\nbody" = ["a"] ∧
    (∀ content first rest, rustLines content = first :: rest → trimStr first ≠ "---" →
      extract_tags content = []) ∧
    extract_tags "" = [] ∧
    extract_tags "---\ntitle: hi\n---\nbody" = [] ∧
    extract_tags "---\ntags: [a\n---\nbody" = [] := by
  refine ⟨by decide, by decide, ?_, by decide, by decide, by decide⟩
  intro content first rest h hne
  unfold extract_tags
  rw [h]
  simp [hne]

/-- Witness for C5: the general no-leading-delimiter case at a concrete
content. -/
theorem c5_extract_tags_total_witness :
    extract_tags "plain note" = [] :=
  c5_extract_tags_total.2.2.1 "plain note" "plain note" [] (by decide) (by decide)

/-- C8 counterexample: the claim says that after any operation changing
the note selection, the preview equals the placeholder whenever no note
is selected.  Moving the note selection in the empty folder `A` leaves no
note selected but clears the preview to the empty string, which is not
the placeholder `Select a note to preview`. -/
theorem c8_preview_placeholder_cex :
    (move_note_selection exEnv exStateA 1).selected_note = none ∧
    (move_note_selection exEnv exStateA 1).note_preview ≠ "Select a note to preview" := by decide

/-!  ## Cache lemmas -/

/-- Inserting a binding makes lookup of its key succeed with its value. -/
theorem cacheGet_insert (cache : Cache) (p : VPath) (v : List NoteEntry) :
    cacheGet (cacheInsert cache p v) p = some v := by
  simp [cacheGet, cacheInsert, List.find?]

/-- Removing a key makes its lookup fail. -/
theorem cacheGet_remove (cache : Cache) (p : VPath) :
    cacheGet (cacheRemove cache p) p = none := by
  unfold cacheGet cacheRemove
  induction cache with
  | nil => rfl
  | cons kv t ih =>
    by_cases h : kv.1 = p
    · simp only [List.filter_cons, h]
      simp
    · simp only [List.filter_cons, h]
      simp [List.find?_cons, h]

/-- C6: the note loader is idempotent per folder: a second
`ensure_notes_loaded` for the same folder, with no intervening
invalidation, returns the cache of the first call unchanged (the cached
branch short-circuits, so no second read happens). -/
theorem c6_ensure_loaded_idempotent (env : Env) (cache : Cache) (folder : VPath) (c1 : Cache)
    (h : ensure_notes_loaded env cache folder = Except.ok c1) :
    ensure_notes_loaded env c1 folder = Except.ok c1 := by
  unfold ensure_notes_loaded at h ⊢
  by_cases hc : (cacheGet cache folder).isSome
  · rw [if_pos hc] at h
    injection h with h2
    subst h2
    rw [if_pos hc]
  · rw [if_neg hc] at h
    cases hr : read_notes env folder with
    | error e => rw [hr] at h; cases h
    | ok notes =>
      rw [hr] at h
      injection h with h2
      subst h2
      have hs : (cacheGet (cacheInsert cache folder notes) folder).isSome := by
        rw [cacheGet_insert]; rfl
      rw [if_pos hs]

/-- The cache produced by loading the concrete vault root into an empty
cache. -/
def exCache1 : Cache :=
  match ensure_notes_loaded exEnv [] exVault with
  | Except.ok c => c
  | Except.error _ => []

/-- Witness for C6 at the concrete vault. -/
theorem c6_ensure_loaded_idempotent_witness :
    ensure_notes_loaded exEnv exCache1 exVault = Except.ok exCache1 :=
  c6_ensure_loaded_idempotent exEnv [] exVault exCache1 rfl

/-- C9: when `fs::metadata` succeeds but `modified()` fails, the note
entry is built with an absent timestamp and the folder's note load still
succeeds and returns the entry. -/
theorem c9_missing_mtime_not_fatal (env : Env) (folder : VPath) (n : String)
    (h1 : env.isDir folder = true)
    (h2 : env.readDir folder = Except.ok [n])
    (h3 : is_markdown (folder ++ [n]) = true)
    (h4 : env.metaRes (folder ++ [n]) = Except.ok none) :
    ∃ e, read_notes env folder = Except.ok [e] ∧ e.modified = none := by
  refine ⟨{ path := folder ++ [n], name := ((folder ++ [n]).getLast?).getD "",
            modified := none,
            tags := extract_tags (match env.readFile (folder ++ [n]) with
              | Except.ok c => c
              | Except.error _ => "") }, ?_, rfl⟩
  simp [read_notes, read_notes_go, build_note_entry, h1, h2, h3, h4, sortNotes, insertNote]

/-- An environment whose `modified()` always fails while `fs::metadata`
succeeds. -/
def exEnvNoM : Env := { exEnv with metaRes := fun _ => Except.ok none }

/-- Witness for C9 at the concrete vault. -/
theorem c9_missing_mtime_not_fatal_witness :
    ∃ e, read_notes exEnvNoM exVault = Except.ok [e] ∧ e.modified = none :=
  c9_missing_mtime_not_fatal exEnvNoM exVault "x.md" rfl rfl rfl rfl

/-- C10: at session initialization the expansion set contains the vault
root path and the path of every folder entry of depth at most 1. -/
theorem c10_initial_expansion (env : Env) (vp : VPath) (t : DirT) (ed : Option String)
    (s : AppState) (h : AppState.new env vp t ed = Except.ok s) :
    vp ∈ s.expanded ∧ ∀ f ∈ s.folders, f.depth ≤ 1 → f.path ∈ s.expanded := by
  simp only [AppState.new] at h
  split at h
  · cases h
  · injection h with h2
    subst h2
    constructor
    · simp [refresh_note_preview, initialize_expanded_folders]
    · intro f hf hd
      simp [refresh_note_preview] at hf
      simp [refresh_note_preview, initialize_expanded_folders, List.mem_map, List.mem_filter]
      exact Or.inr ⟨f, ⟨hf, hd⟩, rfl⟩

/-- Witness for C10 at the concrete vault. -/
theorem c10_initial_expansion_witness : exVault ∈ exState0.expanded :=
  (c10_initial_expansion exEnv exVault exTree (some "vi") exState0 rfl).1

/-- C7: after a successful editor launch, `refresh_after_external_edit`
removes and reloads the edited note's folder cache entry from disk
(provided the reload succeeds) and re-resolves the selection by path:
the edited note's new index when a note with its path is present, else
the first note, else none. -/
theorem c7_refresh_reselects_by_path (env : Env) (s : AppState) (p : VPath)
    (entries : List NoteEntry)
    (h : read_notes env s.selected_folder = Except.ok entries) :
    ∃ s2, refresh_after_external_edit env s p = (s2, none) ∧
      s2.selected_folder = s.selected_folder ∧
      cacheGet s2.notes_cache s.selected_folder = some entries ∧
      (∀ idx, entries.findIdx? (fun n => n.path = p) = some idx →
        s2.selected_note = some idx) ∧
      (entries.findIdx? (fun n => n.path = p) = none → entries ≠ [] →
        s2.selected_note = some 0) ∧
      (entries.findIdx? (fun n => n.path = p) = none → entries = [] →
        s2.selected_note = none) := by
  have hrem := cacheGet_remove s.notes_cache s.selected_folder
  have hens : ensure_notes_loaded env (cacheRemove s.notes_cache s.selected_folder)
      s.selected_folder
      = Except.ok (cacheInsert (cacheRemove s.notes_cache s.selected_folder)
          s.selected_folder entries) := by
    unfold ensure_notes_loaded
    rw [hrem]
    simp [h]
  unfold refresh_after_external_edit
  simp only [hens, cacheGet_insert]
  cases hidx : entries.findIdx? (fun n => n.path = p) with
  | some idx =>
    refine ⟨_, rfl, ?_, ?_, ?_, ?_, ?_⟩
    · simp [refresh_note_preview]
    · simp [refresh_note_preview, cacheGet_insert]
    · intro j hj
      injection hj with hj2
      subst hj2
      simp [refresh_note_preview]
    · intro hn
      exact Option.noConfusion hn
    · intro hn
      exact Option.noConfusion hn
  | none =>
    by_cases he : entries.isEmpty
    · refine ⟨_, rfl, ?_, ?_, ?_, ?_, ?_⟩
      · simp [refresh_note_preview, hidx, he]
      · simp [refresh_note_preview, hidx, he, cacheGet_insert]
      · intro j hj
        exact Option.noConfusion hj
      · intro _ hne
        exact absurd (List.isEmpty_iff.mp he) hne
      · intro _ _
        simp [refresh_note_preview, hidx, he]
    · refine ⟨_, rfl, ?_, ?_, ?_, ?_, ?_⟩
      · simp [refresh_note_preview, hidx, he]
      · simp [refresh_note_preview, hidx, he, cacheGet_insert]
      · intro j hj
        exact Option.noConfusion hj
      · intro _ _
        simp [refresh_note_preview, hidx, he]
      · intro _ hemp
        subst hemp
        simp at he

/-- Witness for C7: the edited note `x.md` of the concrete vault is still
present after the reload and stays selected by path (index 0), with no
reload error. -/
theorem c7_refresh_reselects_by_path_witness :
    (refresh_after_external_edit exEnv exState0 (exVault ++ ["x.md"])).1.selected_note = some 0 ∧
    (refresh_after_external_edit exEnv exState0 (exVault ++ ["x.md"])).2 = none := by
  obtain ⟨s2, he, hf, hc, h4, h5, h6⟩ :=
    c7_refresh_reselects_by_path exEnv exState0 (exVault ++ ["x.md"]) exNotes rfl
  rw [he]
  exact ⟨h4 0 (by decide), rfl⟩

/-!  ## Preview invariant -/

/-- The preview text is exactly what `refresh_note_preview` would derive
from the current selection. -/
def preview_ok (env : Env) (s : AppState) : Prop :=
  s.note_preview = previewFor env s

/-- Refreshing establishes the preview invariant (the refresh changes only
the preview text, which `previewFor` does not read). -/
theorem preview_ok_refresh (env : Env) (s : AppState) :
    preview_ok env (refresh_note_preview env s) := rfl

/-- C8 (amended): after selecting a folder or a successful
refresh-after-edit the preview matches the selected note (or the inline
read error, or the placeholder when no note is selected); after moving
the note selection over a non-empty list it likewise matches; but moving
over an empty list clears the selection and sets the preview to the empty
string, not the placeholder. -/
theorem c8_preview_matches_selection (env : Env) (s : AppState) :
    (∀ p s2, select_folder env s p = Except.ok s2 → preview_ok env s2) ∧
    (∀ p s2, refresh_after_external_edit env s p = (s2, none) → preview_ok env s2) ∧
    (∀ d, (notes_for_selected_folder s).isEmpty = false →
      preview_ok env (move_note_selection env s d)) ∧
    (∀ d, (notes_for_selected_folder s).isEmpty = true →
      (move_note_selection env s d).note_preview = "" ∧
      (move_note_selection env s d).selected_note = none) := by
  refine ⟨?_, ?_, ?_, ?_⟩
  · intro p s2 h
    unfold select_folder at h
    cases hE : ensure_notes_loaded env s.notes_cache p with
    | error e => rw [hE] at h; cases h
    | ok cache =>
      rw [hE] at h
      injection h with h2
      subst h2
      exact preview_ok_refresh env _
  · intro p s2 h
    simp only [refresh_after_external_edit] at h
    split at h
    · injection h with h1 h2
      exact Option.noConfusion h2
    · injection h with h1 h2
      subst h1
      exact preview_ok_refresh env _
  · intro d hne
    simp only [move_note_selection, hne, Bool.false_eq_true, if_false]
    exact preview_ok_refresh env _
  · intro d he
    simp [move_note_selection, he]

/-- Witness for C8 at the concrete vault: after selecting the empty
subfolder `A` the preview invariant holds (it shows the placeholder). -/
theorem c8_preview_matches_selection_witness : preview_ok exEnv exStateA :=
  (c8_preview_matches_selection exEnv exState0).1 (exVault ++ ["A"]) exStateA rfl

/-!  ## Selection-bounds invariant -/

/-- The note-selection invariant: when a note index is selected it is
within the selected folder's cached note list. -/
def note_index_ok (s : AppState) : Prop :=
  ∀ i, s.selected_note = some i → i < (notes_for_selected_folder s).length

/-- The invariant only depends on the selection, cache and selected
folder. -/
theorem note_index_ok_of_fields (s s2 : AppState)
    (h1 : s2.selected_note = s.selected_note)
    (h2 : s2.notes_cache = s.notes_cache)
    (h3 : s2.selected_folder = s.selected_folder)
    (h : note_index_ok s) : note_index_ok s2 := by
  intro i hi
  have hn : notes_for_selected_folder s2 = notes_for_selected_folder s := by
    unfold notes_for_selected_folder
    rw [h2, h3]
  rw [hn]
  apply h
  rw [← h1]
  exact hi

/-- Refreshing the preview keeps the invariant. -/
theorem note_index_ok_refresh (env : Env) (s : AppState) (h : note_index_ok s) :
    note_index_ok (refresh_note_preview env s) :=
  note_index_ok_of_fields s _ rfl rfl rfl h

/-- A successful `select_folder` establishes the invariant: the new
selection is `some 0` only when the loaded list is non-empty. -/
theorem note_index_ok_select (env : Env) (s : AppState) (p : VPath) (s2 : AppState)
    (h : select_folder env s p = Except.ok s2) : note_index_ok s2 := by
  unfold select_folder at h
  cases hE : ensure_notes_loaded env s.notes_cache p with
  | error e => rw [hE] at h; cases h
  | ok cache =>
    rw [hE] at h
    injection h with h2
    subst h2
    apply note_index_ok_refresh
    intro i hi
    have hi2 : (cacheGet cache p).bind
        (fun es => if es.isEmpty then none else some 0) = some i := hi
    cases hC : cacheGet cache p with
    | none => rw [hC] at hi2; cases hi2
    | some es =>
      rw [hC] at hi2
      simp only [Option.some_bind] at hi2
      by_cases he : es.isEmpty
      · rw [if_pos he] at hi2; cases hi2
      · rw [if_neg he] at hi2
        injection hi2 with h3
        subst h3
        show 0 < ((cacheGet cache p).getD []).length
        rw [hC]
        cases es with
        | nil => simp at he
        | cons a t => simp

/-- `move_note_selection` always establishes the invariant: the clamped
index is below the list length. -/
theorem note_index_ok_move_note (env : Env) (s : AppState) (d : Int) :
    note_index_ok (move_note_selection env s d) := by
  unfold move_note_selection
  by_cases he : (notes_for_selected_folder s).isEmpty
  · simp only [he, if_true]
    intro i hi
    cases hi
  · simp only [he, Bool.false_eq_true, if_false]
    apply note_index_ok_refresh
    intro i hi
    injection hi with h3
    subst h3
    show (min (max (((s.selected_note.getD 0 : Nat) : Int) + d) 0)
        (((notes_for_selected_folder s).length : Int) - 1)).toNat <
      (notes_for_selected_folder {s with selected_note := some (min
        (max (((s.selected_note.getD 0 : Nat) : Int) + d) 0)
        (((notes_for_selected_folder s).length : Int) - 1)).toNat}).length
    have hne : notes_for_selected_folder s ≠ [] := by
      intro hh
      rw [hh] at he
      simp at he
    have hpos : 0 < (notes_for_selected_folder s).length := List.length_pos.mpr hne
    have hle : (min (max (((s.selected_note.getD 0 : Nat) : Int) + d) 0)
        (((notes_for_selected_folder s).length : Int) - 1)) ≤
        ((notes_for_selected_folder s).length : Int) - 1 := min_le_right _ _
    have hsame : notes_for_selected_folder {s with selected_note := some (min
        (max (((s.selected_note.getD 0 : Nat) : Int) + d) 0)
        (((notes_for_selected_folder s).length : Int) - 1)).toNat} =
        notes_for_selected_folder s := rfl
    rw [hsame]
    omega

/-- Both outcomes of `prepare_open_action` keep the invariant (it only
touches the status line and the cached editor command). -/
theorem note_index_ok_prepare (env : Env) (s : AppState) (h : note_index_ok s) :
    note_index_ok (prepare_open_action env s).1 := by
  unfold prepare_open_action
  cases selected_note_path s with
  | none => exact note_index_ok_of_fields s _ rfl rfl rfl h
  | some path =>
    cases s.editor_command with
    | some cmd => exact h
    | none =>
      cases env.resolveEditor with
      | ok cmd => exact note_index_ok_of_fields s _ rfl rfl rfl h
      | error e => exact note_index_ok_of_fields s _ rfl rfl rfl h

/-- `open_or_continue` keeps the invariant. -/
theorem note_index_ok_open_or_continue (env : Env) (s : AppState) (h : note_index_ok s) :
    note_index_ok (open_or_continue env s).1 := by
  have hp := note_index_ok_prepare env s h
  unfold open_or_continue
  cases hq : prepare_open_action env s with
  | mk s2 o =>
    rw [hq] at hp
    cases o with
    | some a => exact hp
    | none => exact hp

/-- A successful `move_folder_selection` keeps the invariant. -/
theorem note_index_ok_move_folder (env : Env) (s : AppState) (d : Int) (s2 : AppState)
    (h2 : move_folder_selection env s d = Except.ok s2) (h : note_index_ok s) :
    note_index_ok s2 := by
  simp only [move_folder_selection] at h2
  split at h2
  · injection h2 with h3
    subst h3
    exact h
  · split at h2
    · injection h2 with h3
      subst h3
      exact h
    · exact note_index_ok_select env s _ s2 h2

/-- A successful `collapse_selected_folder` keeps the invariant. -/
theorem note_index_ok_collapse (env : Env) (s : AppState) (s2 : AppState)
    (h2 : collapse_selected_folder env s = Except.ok s2) (h : note_index_ok s) :
    note_index_ok s2 := by
  unfold collapse_selected_folder at h2
  by_cases hm : s.selected_folder ∈ s.expanded
  · rw [if_pos hm] at h2
    injection h2 with h3
    subst h3
    exact note_index_ok_of_fields s _ rfl rfl rfl h
  · rw [if_neg hm] at h2
    split at h2
    · split at h2
      · exact note_index_ok_select env s _ s2 h2
      · injection h2 with h3
        subst h3
        exact h
    · injection h2 with h3
      subst h3
      exact h

/-- Every key event keeps the invariant. -/
theorem note_index_ok_handle_key (env : Env) (s : AppState) (k : KeyEvent)
    (h : note_index_ok s) : note_index_ok (handle_key env s k).1 := by
  unfold handle_key
  cases hpress : (!k.press) with
  | true => exact h
  | false =>
    cases k.code with
    | char c =>
      by_cases h1 : c = 'q'
      · simp only [if_pos h1]; exact h
      · simp only [if_neg h1]
        by_cases h2 : c = 'e' ∨ c = 'o'
        · simp only [if_pos h2]
          exact note_index_ok_open_or_continue env s h
        · simp only [if_neg h2]
          by_cases h3 : c = 'n' ∨ c = 'd'
          · simp only [if_pos h3]
            exact note_index_ok_of_fields s _ rfl rfl rfl h
          · simp only [if_neg h3]
            by_cases h4 : c = '/'
            · simp only [if_pos h4]
              exact note_index_ok_of_fields s _ rfl rfl rfl h
            · simp only [if_neg h4]; exact h
    | tab => exact note_index_ok_of_fields s _ rfl rfl rfl h
    | backTab => exact note_index_ok_of_fields s _ rfl rfl rfl h
    | up =>
      cases s.focus with
      | folders =>
        cases hm : move_folder_selection env s (-1) with
        | ok s2 => exact note_index_ok_move_folder env s (-1) s2 hm h
        | error e => exact note_index_ok_of_fields s _ rfl rfl rfl h
      | notes => exact note_index_ok_move_note env s (-1)
      | viewer => exact h
    | down =>
      cases s.focus with
      | folders =>
        cases hm : move_folder_selection env s 1 with
        | ok s2 => exact note_index_ok_move_folder env s 1 s2 hm h
        | error e => exact note_index_ok_of_fields s _ rfl rfl rfl h
      | notes => exact note_index_ok_move_note env s 1
      | viewer => exact h
    | left =>
      cases s.focus with
      | folders =>
        cases hm : collapse_selected_folder env s with
        | ok s2 => exact note_index_ok_collapse env s s2 hm h
        | error e => exact note_index_ok_of_fields s _ rfl rfl rfl h
      | notes => exact h
      | viewer => exact h
    | right =>
      cases s.focus with
      | folders => exact note_index_ok_of_fields s _ rfl rfl rfl h
      | notes => exact h
      | viewer => exact h
    | enter =>
      cases s.focus with
      | folders => exact note_index_ok_of_fields s _ rfl rfl rfl h
      | notes => exact note_index_ok_open_or_continue env s h
      | viewer => exact note_index_ok_open_or_continue env s h
    | esc => exact note_index_ok_of_fields s _ rfl rfl rfl h
    | other => exact h

/-- Every sequence of key events keeps the invariant. -/
theorem note_index_ok_run_keys (env : Env) (s : AppState) (ks : List KeyEvent)
    (h : note_index_ok s) : note_index_ok (run_keys env s ks) := by
  induction ks generalizing s with
  | nil => exact h
  | cons k t ih => exact ih _ (note_index_ok_handle_key env s k h)

/-- C4: under every sequence of key events the selected-note index stays
within the cached note list; and both movement operations clamp: moving
the note selection over an empty list is the stated no-op, otherwise the
new index is the clamp of `current + delta` to `[0, len-1]` (never
wrapping); moving the folder selection over an empty visible list is a
no-op, otherwise the consulted index is the same clamp over the visible
list and the code re-selects only when the target differs. -/
theorem c4_selection_clamped (env : Env) (s : AppState) (ks : List KeyEvent) (delta : Int) :
    (note_index_ok s → note_index_ok (run_keys env s ks)) ∧
    ((notes_for_selected_folder s).isEmpty = true →
      move_note_selection env s delta = { s with selected_note := none, note_preview := "" }) ∧
    ((notes_for_selected_folder s).isEmpty = false →
      ∃ j, j < (notes_for_selected_folder s).length ∧
        (j : Int) = min (max (((s.selected_note.getD 0 : Nat) : Int) + delta) 0)
          (((notes_for_selected_folder s).length : Int) - 1) ∧
        move_note_selection env s delta =
          refresh_note_preview env { s with selected_note := some j }) ∧
    ((visible_folders s).isEmpty = true → move_folder_selection env s delta = Except.ok s) ∧
    ((visible_folders s).isEmpty = false →
      ∃ j, j < (visible_folders s).length ∧
        (j : Int) = min (max ((((visible_folder_index s).getD 0 : Nat) : Int) + delta) 0)
          (((visible_folders s).length : Int) - 1) ∧
        move_folder_selection env s delta =
          (if ((visible_folders s).getD j default).path = s.selected_folder then Except.ok s
           else select_folder env s (((visible_folders s).getD j default).path))) := by
  refine ⟨note_index_ok_run_keys env s ks, ?_, ?_, ?_, ?_⟩
  · intro he
    simp only [move_note_selection, he, if_true]
  · intro hne
    have hpos : 0 < (notes_for_selected_folder s).length := by
      cases hl : notes_for_selected_folder s with
      | nil => rw [hl] at hne; simp at hne
      | cons a t => simp
    have hnn : (0 : Int) ≤ min (max (((s.selected_note.getD 0 : Nat) : Int) + delta) 0)
        (((notes_for_selected_folder s).length : Int) - 1) := by
      apply le_min (le_max_right _ 0)
      omega
    have hle : min (max (((s.selected_note.getD 0 : Nat) : Int) + delta) 0)
        (((notes_for_selected_folder s).length : Int) - 1) ≤
        ((notes_for_selected_folder s).length : Int) - 1 := min_le_right _ _
    refine ⟨(min (max (((s.selected_note.getD 0 : Nat) : Int) + delta) 0)
      (((notes_for_selected_folder s).length : Int) - 1)).toNat, ?_, ?_, ?_⟩
    · omega
    · omega
    · simp only [move_note_selection, hne, Bool.false_eq_true, if_false]
  · intro hv
    simp only [move_folder_selection, hv, if_true]
  · intro hv
    have hpos : 0 < (visible_folders s).length := by
      cases hl : visible_folders s with
      | nil => rw [hl] at hv; simp at hv
      | cons a t => simp
    have hnn : (0 : Int) ≤ min (max ((((visible_folder_index s).getD 0 : Nat) : Int) + delta) 0)
        (((visible_folders s).length : Int) - 1) := by
      apply le_min (le_max_right _ 0)
      omega
    have hle : min (max ((((visible_folder_index s).getD 0 : Nat) : Int) + delta) 0)
        (((visible_folders s).length : Int) - 1) ≤
        ((visible_folders s).length : Int) - 1 := min_le_right _ _
    refine ⟨(min (max ((((visible_folder_index s).getD 0 : Nat) : Int) + delta) 0)
      (((visible_folders s).length : Int) - 1)).toNat, ?_, ?_, ?_⟩
    · omega
    · omega
    · simp only [move_folder_selection, hv, Bool.false_eq_true, if_false]

/-- Witness for C4: the invariant holds after a down-arrow key in the
concrete session (whose initial state selects note 0 of one note). -/
theorem c4_selection_clamped_witness :
    note_index_ok (run_keys exEnv exState0 [kDown]) := by
  apply (c4_selection_clamped exEnv exState0 [kDown] 1).1
  intro i hi
  have he : exState0.selected_note = some 0 := rfl
  rw [he] at hi
  injection hi with h2
  subst h2
  decide
